import Mathlib

/-!
Shallow embedding of the announcer subsystem of the dragonfly client
(src/dragonfly-client/src/announcer/mod.rs) and theorems settling the
specification claims against it.

Modelling conventions:
- Machine integers (u64, u32, i32) are modelled as Nat or Int; no claim
  under test depends on wrap-around behaviour.
- Rust f64 values are modelled as Rat.  The only float computations in
  the announcer are casts of integers and single divisions; the
  distinctions the claims draw (zero versus strictly between 0 and 1)
  are preserved exactly by Rat.
- A Rust panic (unwrap on None, out-of-bounds string slice) is modelled
  by an explicit panicked outcome of the enclosing operation.
- RPC side effects are modelled as lists of issued requests or event
  traces; results of external RPCs are supplied as explicit parameters.
- Rust string byte slicing is modelled on characters; all task ids the
  announcer handles are hex-like ASCII, where the two coincide.
-/

namespace DflyAnnouncer

/-! ## Wire data model (dragonfly_api), restricted to the fields the
announcer reads or writes.  Fields the announcer leaves at their
protobuf defaults via Default::default() carry default values here;
proto fields the announcer never touches are omitted. -/

/-- Common.v2.Cpu as filled by make_announce_host_request (lines 224-232). -/
structure Cpu where
  logicalCount : Nat := 0
  physicalCount : Nat := 0
  percent : Rat := 0
  processPercent : Rat := 0
deriving DecidableEq

/-- Common.v2.Memory as filled by make_announce_host_request (lines 235-242). -/
structure Memory where
  total : Nat := 0
  available : Nat := 0
  used : Nat := 0
  usedPercent : Rat := 0
  processUsedPercent : Rat := 0
  free : Nat := 0
deriving DecidableEq

/-- Common.v2.Network as filled by make_announce_host_request (lines 245-253). -/
structure Network where
  tcpConnectionCount : Nat := 0
  uploadTcpConnectionCount : Nat := 0
  idc : Option String := none
  location : Option String := none
deriving DecidableEq

/-- Common.v2.Disk as filled by make_announce_host_request (lines 262-273). -/
structure Disk where
  total : Nat := 0
  free : Nat := 0
  used : Nat := 0
  usedPercent : Rat := 0
  inodesTotal : Nat := 0
  inodesUsed : Nat := 0
  inodesFree : Nat := 0
  inodesUsedPercent : Rat := 0
deriving DecidableEq

/-- Common.v2.Build as filled by make_announce_host_request (lines 276-282). -/
structure Build where
  gitVersion : String := ""
  gitCommit : Option String := none
  goVersion : Option String := none
  rustVersion : Option String := none
  platform : Option String := none
deriving DecidableEq

/-- dragonfly_client_config::dfdaemon::HostType (external crate).
Discriminants follow declaration order of the external enum. -/
inductive HostType where
  | normal
  | superSeed
  | strongSeed
  | weakSeed
deriving DecidableEq

/-- Numeric value used for the wire field host.type (host_type as u32). -/
def HostType.toNat : HostType → Nat
  | .normal => 0
  | .superSeed => 1
  | .strongSeed => 2
  | .weakSeed => 3

/-- String form used for UpdateSeedPeerRequest.type (kind.to_string()). -/
def HostType.str : HostType → String
  | .normal => "normal"
  | .superSeed => "super"
  | .strongSeed => "strong"
  | .weakSeed => "weak"

/-- Common.v2.Host.  Environment-constant string fields (os, platform,
platform_family, platform_version, kernel_version) are modelled as
plain string fields filled from constants below. -/
structure Host where
  id : String := ""
  type : Nat := 0
  hostname : String := ""
  ip : String := ""
  port : Int := 0
  downloadPort : Int := 0
  os : String := ""
  platform : String := ""
  platformFamily : String := ""
  cpu : Option Cpu := none
  memory : Option Memory := none
  network : Option Network := none
  disk : Option Disk := none
  build : Option Build := none
  schedulerClusterId : Nat := 0
deriving DecidableEq

/-- Common.v2.Piece as filled from storage piece metadata (lines 442-449). -/
structure Piece where
  number : Nat := 0
  parentId : Option String := none
  offset : Nat := 0
  length : Nat := 0
  digest : String := ""
deriving DecidableEq

/-- Common.v2.Task as filled inside a Peer (lines 456-461). -/
structure WireTask where
  id : String := ""
  pieceLength : Nat := 0
  contentLength : Nat := 0
deriving DecidableEq

/-- Common.v2.Peer as filled by make_announce_peers_request (lines 453-467). -/
structure Peer where
  id : String := ""
  pieces : List Piece := []
  task : Option WireTask := none
  host : Option Host := none
deriving DecidableEq

/-- Scheduler.v2.AnnouncePeersRequest. -/
structure AnnouncePeersRequest where
  peers : List Peer
deriving DecidableEq

/-- Scheduler.v2.AnnounceHostRequest; the interval is the configured
announce interval (the prost Duration round trip is lossless for the
configured durations and is not modelled). -/
structure AnnounceHostRequest where
  host : Host
  interval : Option Nat
deriving DecidableEq

/-- Manager.v2.SourceType: the announcer only ever uses SeedPeerSource. -/
inductive SourceType where
  | seedPeerSource
deriving DecidableEq

/-- Manager.v2.UpdateSeedPeerRequest (lines 83-93). -/
structure UpdateSeedPeerRequest where
  sourceType : SourceType
  hostname : String
  kind : String
  idc : Option String
  location : Option String
  ip : String
  port : Int
  downloadPort : Int
  seedPeerClusterId : Nat
deriving DecidableEq

/-- Manager.v2.DeleteSeedPeerRequest (lines 101-106). -/
structure DeleteSeedPeerRequest where
  sourceType : SourceType
  hostname : String
  ip : String
  seedPeerClusterId : Nat
deriving DecidableEq

/-! ## Configuration (dragonfly_client_config::dfdaemon), the fields read
by the announcer. -/

structure SeedPeerConfig where
  enable : Bool
  kind : HostType
  clusterId : Nat
deriving DecidableEq

structure HostConfig where
  hostname : String
  ip : Option String
  idc : Option String := none
  location : Option String := none
deriving DecidableEq

structure UploadServerConfig where
  port : Int
deriving DecidableEq

structure UploadConfig where
  server : UploadServerConfig
deriving DecidableEq

structure GcPolicyConfig where
  taskTtl : Nat
deriving DecidableEq

structure GcConfig where
  policy : GcPolicyConfig
deriving DecidableEq

structure SchedulerConfig where
  announceInterval : Nat
deriving DecidableEq

structure Config where
  seedPeer : SeedPeerConfig
  host : HostConfig
  upload : UploadConfig
  gc : GcConfig
  scheduler : SchedulerConfig
deriving DecidableEq

/-! ## Telemetry inputs.  The sysinfo and fs2 crates are external; the
values they sample are supplied as inputs to the snapshot function. -/

/-- One sample of the sysinfo System plus the current process. -/
structure SysInfo where
  totalMemory : Nat
  availableMemory : Nat
  usedMemory : Nat
  freeMemory : Nat
  processMemory : Nat
  physicalCoreCount : Option Nat
  globalCpuPercent : Rat
  processCpuPercent : Rat
deriving DecidableEq

/-- One successful statvfs sample of the storage directory. -/
structure StatvfsInfo where
  totalSpace : Nat
  availableSpace : Nat
deriving DecidableEq

/-- Build-time constant CARGO_PKG_VERSION; its value is irrelevant to
every claim under test. -/
def CARGO_PKG_VERSION : String := "0.1.0"

/-- Build-time constant GIT_HASH.unwrap_or_default(). -/
def GIT_HASH : String := ""

/-- Build-time constant CARGO_PKG_RUSTC_VERSION. -/
def CARGO_PKG_RUSTC_VERSION : String := "rustc"

/-- Environment constant env::consts::OS. -/
def OS_NAME : String := "linux"

/-- Environment constant env::consts::FAMILY. -/
def OS_FAMILY : String := "unix"

/-- Cpu block of make_announce_host_request (lines 224-232): both core
counts report sys.physical_core_count().unwrap_or_default(). -/
def makeCpu (si : SysInfo) : Cpu :=
  { logicalCount := si.physicalCoreCount.getD 0
    physicalCount := si.physicalCoreCount.getD 0
    percent := si.globalCpuPercent
    processPercent := si.processCpuPercent }

/-- Memory block of make_announce_host_request (lines 235-242).  The
source computes sys.used_memory() / sys.total_memory() on u64 and only
then casts to f64, so the quotient is truncated before the cast; Nat
division mirrors that exactly (same for the process ratio).  A zero
total would make the u64 division panic in Rust; sysinfo reports a
positive total on any real system and no claim exercises that case. -/
def makeMemory (si : SysInfo) : Memory :=
  { total := si.totalMemory
    available := si.availableMemory
    used := si.usedMemory
    usedPercent := ((si.usedMemory / si.totalMemory : Nat) : Rat)
    processUsedPercent := ((si.processMemory / si.totalMemory : Nat) : Rat)
    free := si.freeMemory }

/-- Modelled from the spec: section 4.1 states used_percent = used/total
and process_used_percent = process_resident/total, "performed as a
ratio, not truncated to integer; implementers should compute as
floating-point".  This is the refinement target the source Memory block
is compared against. -/
def specMemoryUsedPercent (used total : Nat) : Rat :=
  (used : Rat) / (total : Rat)

/-- Network block of make_announce_host_request (lines 245-253). -/
def makeNetwork (cfg : Config) : Network :=
  { tcpConnectionCount := 0
    uploadTcpConnectionCount := 0
    idc := cfg.host.idc
    location := cfg.host.location }

/-- Disk block of make_announce_host_request (lines 256-273).  The used
percent here IS computed in f64 before dividing (contrast with memory). -/
def makeDisk (s : StatvfsInfo) : Disk :=
  { total := s.totalSpace
    free := s.availableSpace
    used := s.totalSpace - s.availableSpace
    usedPercent := ((s.totalSpace - s.availableSpace : Nat) : Rat) / (s.totalSpace : Rat) * 100
    inodesTotal := 0
    inodesUsed := 0
    inodesFree := 0
    inodesUsedPercent := 0 }

/-- Build block of make_announce_host_request (lines 276-282). -/
def makeBuild : Build :=
  { gitVersion := CARGO_PKG_VERSION
    gitCommit := some GIT_HASH
    goVersion := none
    rustVersion := some CARGO_PKG_RUSTC_VERSION
    platform := none }

/-- Outcome of make_announce_host_request: success, an error surfaced
with ?, or a Rust panic. -/
inductive HostReqOutcome where
  | ok (r : AnnounceHostRequest)
  | err (kind : String)
  | panicked
deriving DecidableEq

/-- SchedulerAnnouncer::make_announce_host_request (lines 208-314).
Control flow follows the source order: host type selection, cpu and
memory and network blocks, the fallible statvfs call (surfaced with ?),
the disk block, then the Host literal whose ip field unwraps
config.host.ip (line 289): a None ip panics there. -/
def makeAnnounceHostRequest (cfg : Config) (hostId : String) (si : SysInfo)
    (stat : Option StatvfsInfo) : HostReqOutcome :=
  let hostType := if cfg.seedPeer.enable then cfg.seedPeer.kind else HostType.normal
  let cpu := makeCpu si
  let memory := makeMemory si
  let network := makeNetwork cfg
  match stat with
  | none => .err "statvfs"
  | some s =>
    let disk := makeDisk s
    match cfg.host.ip with
    | none => .panicked
    | some ip =>
      .ok
        { host :=
            { id := hostId
              type := hostType.toNat
              hostname := cfg.host.hostname
              ip := ip
              port := cfg.upload.server.port
              downloadPort := cfg.upload.server.port
              os := OS_NAME
              platform := OS_NAME
              platformFamily := OS_FAMILY
              cpu := some cpu
              memory := some memory
              network := some network
              disk := some disk
              build := some makeBuild
              schedulerClusterId := 0 }
          interval := some cfg.scheduler.announceInterval }

/-! ## ManagerAnnouncer -/

/-- An RPC issued to the manager. -/
inductive MgrRpc where
  | update (r : UpdateSeedPeerRequest)
  | delete (r : DeleteSeedPeerRequest)
deriving DecidableEq

def MgrRpc.isDelete : MgrRpc → Bool
  | .delete _ => true
  | .update _ => false

/-- Result of ManagerAnnouncer::run. -/
inductive RunResult where
  | ok
  | err (msg : String)
  | panicked
deriving DecidableEq

/-- The UpdateSeedPeerRequest built at lines 83-93, given the unwrapped ip. -/
def mkUpdateSeedPeerRequest (cfg : Config) (ip : String) : UpdateSeedPeerRequest :=
  { sourceType := .seedPeerSource
    hostname := cfg.host.hostname
    kind := cfg.seedPeer.kind.str
    idc := cfg.host.idc
    location := cfg.host.location
    ip := ip
    port := cfg.upload.server.port
    downloadPort := cfg.upload.server.port
    seedPeerClusterId := cfg.seedPeer.clusterId }

/-- The DeleteSeedPeerRequest built at lines 101-106, given the unwrapped ip. -/
def mkDeleteSeedPeerRequest (cfg : Config) (ip : String) : DeleteSeedPeerRequest :=
  { sourceType := .seedPeerSource
    hostname := cfg.host.hostname
    ip := ip
    seedPeerClusterId := cfg.seedPeer.clusterId }

/-- ManagerAnnouncer::run (lines 75-116), for an execution in which the
shutdown signal eventually fires.  Returns the manager RPCs issued in
order, and the result of run.  The results of the two RPCs are inputs.
Both request literals unwrap config.host.ip (lines 89 and 104): a None
ip panics before the update RPC is sent.  Both RPC results are awaited
with ?, so a failure of either one is propagated (lines 94 and 107). -/
def managerRun (cfg : Config) (updateRes deleteRes : Except String Unit) :
    List MgrRpc × RunResult :=
  if cfg.seedPeer.enable then
    match cfg.host.ip with
    | none => ([], .panicked)
    | some ip =>
      let upd := MgrRpc.update (mkUpdateSeedPeerRequest cfg ip)
      match updateRes with
      | .error e => ([upd], .err e)
      | .ok _ =>
        -- shutdown.recv().await fires here (line 97)
        let del := MgrRpc.delete (mkDeleteSeedPeerRequest cfg ip)
        match deleteRes with
        | .error e => ([upd, del], .err e)
        | .ok _ => ([upd, del], .ok)
  else
    -- seed peer disabled: await shutdown, no manager RPCs (lines 110-113)
    ([], .ok)

/-! ## Local storage model (dragonfly-client-storage, external crate).
The announcer reads tasks and pieces through the narrow interface of
spec section 6 and only branches on the Boolean results of the two
task predicates, so those results are carried as per-task fields. -/

/-- Storage task metadata as seen by the reconciler.  isExpired is the
value of task.is_expired(config.gc.policy.task_ttl) and isFinished the
value of task.is_finished(); both predicates live in the external
storage crate. -/
structure StoredTask where
  id : String
  pieceLength : Nat := 0
  contentLength : Option Nat := none
  isExpired : Bool
  isFinished : Bool
deriving DecidableEq

/-- Storage piece metadata (the fields copied at lines 442-449). -/
structure StoredPiece where
  number : Nat := 0
  parentId : Option String := none
  offset : Nat := 0
  length : Nat := 0
  digest : String := ""
deriving DecidableEq

/-- The collaborators of make_announce_peers_request: the host id, the
hash ring of the scheduler client (a mapping from 5-character route key
to scheduler address), storage piece lookup (None models a get_pieces
failure, absorbed by unwrap_or_default at line 441), and the id
generator peer_id stream indexed by how many peers were built. -/
structure ReconEnv where
  hostId : String
  ring : String → Option String
  getPieces : String → Option (List StoredPiece)
  peerId : Nat → String

/-- Eviction predicate of line 426: the task is expired or not finished. -/
def shouldEvict (t : StoredTask) : Bool :=
  t.isExpired || !t.isFinished

/-- Wire piece built from storage piece metadata (lines 442-449). -/
def mkWirePiece (sp : StoredPiece) : Piece :=
  { number := sp.number
    parentId := sp.parentId
    offset := sp.offset
    length := sp.length
    digest := sp.digest }

/-- Wire task header inside a peer (lines 456-461);
content_length.unwrap_or_default(). -/
def mkWireTask (t : StoredTask) : WireTask :=
  { id := t.id
    pieceLength := t.pieceLength
    contentLength := t.contentLength.getD 0 }

/-- The Peer built for one announceable task (lines 440-467); n is the
number of peers built before it, feeding the fresh peer id. -/
def mkPeer (env : ReconEnv) (n : Nat) (t : StoredTask) : Peer :=
  { id := env.peerId n
    pieces := ((env.getPieces t.id).getD []).map mkWirePiece
    task := some (mkWireTask t)
    host := some { id := env.hostId } }

/-- Failure of a reconciliation pass: the HashRing error of line 472, or
the Rust panic of the byte slice task.id[0..5] (line 471) when the id
has fewer than 5 characters. -/
inductive ReconErr where
  | hashRing (taskId : String)
  | panicShortId (taskId : String)
deriving DecidableEq

/-- peers.entry(addr).or_insert(vec![]).push(peer) on the bucket map
(line 474), modelled as an association list keyed by first insertion;
per-bucket peer order matches insertion order as in the source, while
the iteration order of the Rust HashMap over distinct keys is
unspecified and this model fixes one order. -/
def insertBucket (addr : String) (p : Peer) :
    List (String × List Peer) → List (String × List Peer)
  | [] => [(addr, [p])]
  | b :: bs =>
    if b.1 = addr then (b.1, b.2 ++ [p]) :: bs
    else b :: insertBucket addr p bs

/-- Result of the task scan: the task ids for which a delete_task RPC
was issued (in scan order; a delete failure is logged and swallowed by
unwrap_or_else at lines 433-435 and does not affect the scan), and
either the final bucket map or the failure that aborted the scan. -/
structure ProcOut where
  deletedTaskIds : List String
  result : Except ReconErr (List (String × List Peer))

/-- The task loop of make_announce_peers_request (lines 424-475).  For
each task in storage order: evict (delete_task RPC) when expired or
unfinished, otherwise build the peer, slice the 5-character route key
(panicking when the id is shorter), look it up in the ring snapshot
(HashRing error with the full task id when absent, surfaced with ?),
and push the peer into the bucket of the resolved address. -/
def processTasks (env : ReconEnv) :
    List StoredTask → List (String × List Peer) → List String → Nat → ProcOut
  | [], buckets, deleted, _ => ⟨deleted, .ok buckets⟩
  | t :: ts, buckets, deleted, n =>
    if shouldEvict t then
      processTasks env ts buckets (deleted ++ [t.id]) n
    else
      let peer := mkPeer env n t
      if t.id.length < 5 then
        ⟨deleted, .error (.panicShortId t.id)⟩
      else
        match env.ring (t.id.take 5) with
        | none => ⟨deleted, .error (.hashRing t.id)⟩
        | some addr => processTasks env ts (insertBucket addr peer buckets) deleted (n + 1)

/-- Result of make_announce_peers_request: the delete_task RPCs issued
and either the requests or the failure. -/
structure ReconOut where
  deletedTaskIds : List String
  result : Except ReconErr (List AnnouncePeersRequest)

/-- SchedulerAnnouncer::make_announce_peers_request (lines 413-483):
scan all stored tasks starting from empty accumulators, then build one
AnnouncePeersRequest per bucket (lines 477-480). -/
def makeAnnouncePeersRequest (env : ReconEnv) (tasks : List StoredTask) : ReconOut :=
  let o := processTasks env tasks [] [] 0
  ⟨o.deletedTaskIds, o.result.map (fun bs => bs.map (fun b => { peers := b.2 }))⟩

/-! ## Chunked streaming (announce_peers, lines 341-379). -/

/-- slice::chunks with a fuel argument bounding the recursion depth;
chunks is only ever called with positive chunk size and fuel at least
the list length, where the fuel never runs out. -/
def chunksFuel (n : Nat) : Nat → List α → List (List α)
  | _, [] => []
  | 0, _ => []
  | fuel + 1, l => l.take n :: chunksFuel n fuel (l.drop n)

/-- request.peers.chunks(10) generalized: maximal runs of n elements in
order (line 363).  Rust chunks(0) panics; the announcer only uses 10. -/
def chunks (n : Nat) (l : List α) : List (List α) :=
  chunksFuel n l.length l

/-- The AnnouncePeersRequest frames sent on the stream for one bucket
request, in order (lines 363-376): one frame per chunk of 10 peers. -/
def framesFor (r : AnnouncePeersRequest) : List AnnouncePeersRequest :=
  (chunks 10 r.peers).map (fun c => { peers := c })

/-- What the spawn loop of announce_peers does with one request (lines
334-339): request.peers[0] panics on an empty request, a first peer
without a task header makes the loop skip the request (continue), and
otherwise a stream is spawned routed by that task id. -/
inductive SpawnOutcome where
  | panicked
  | skipped
  | spawned (taskId : String)
deriving DecidableEq

def spawnDecision (r : AnnouncePeersRequest) : SpawnOutcome :=
  match r.peers with
  | [] => .panicked
  | p :: _ =>
    match p.task with
    | none => .skipped
    | some w => .spawned w.id

/-! ## Observable events of a reconciliation pass.  The trace below is
the program-order trace: the hashring read guard is taken at line 420
and dropped when make_announce_peers_request returns, so every
delete_task RPC of the scan is awaited inside the guard scope in every
interleaving, and every stream event is ordered after the return of the
function, hence after the release, in every interleaving. -/

inductive Event where
  | acquireRingRead
  | releaseRingRead
  | deleteTaskRpc (taskId : String)
  | openStream (taskId : String)
  | sendFrame (taskId : String) (peerCount : Nat)
deriving DecidableEq

def Event.isStream : Event → Bool
  | .openStream _ => true
  | .sendFrame _ _ => true
  | _ => false

/-- Events of make_announce_peers_request itself: acquire the ring read
guard, issue the delete_task RPCs of the scan, drop the guard on exit. -/
def ringEvents (deleted : List String) : List Event :=
  Event.acquireRingRead :: (deleted.map Event.deleteTaskRpc ++ [Event.releaseRingRead])

/-- Stream events for one spawned request: open the announce_peers
stream, then send the chunked frames in order. -/
def streamEventsOf (r : AnnouncePeersRequest) : List Event :=
  match spawnDecision r with
  | .spawned tid =>
    Event.openStream tid :: (framesFor r).map (fun f => Event.sendFrame tid f.peers.length)
  | _ => []

def streamEvents (reqs : List AnnouncePeersRequest) : List Event :=
  reqs.flatMap streamEventsOf

/-- The stream events following a reconciliation: none when the scan
failed (announce_peers surfaces the error before spawning anything). -/
def streamTail (env : ReconEnv) (tasks : List StoredTask) : List Event :=
  match (makeAnnouncePeersRequest env tasks).result with
  | .ok reqs => streamEvents reqs
  | .error _ => []

/-- Program-order event trace of announce_peers (lines 317-410). -/
def announcerTrace (env : ReconEnv) (tasks : List StoredTask) : List Event :=
  ringEvents (makeAnnouncePeersRequest env tasks).deletedTaskIds ++ streamTail env tasks

/-! ## The join loop of announce_peers (lines 392-407). -/

/-- Error of one spawned per-bucket announcement. -/
inductive AnnError where
  | sendTimeout
  | other (msg : String)
deriving DecidableEq

/-- Result value of the join loop, given the completion results of the
spawned announcements in join order: Err(SendTimeout) calls detach_all,
emptying the set so the loop exits and announce_peers returns Ok; any
other error is logged and the loop keeps awaiting; task-panic join
errors (or_err AsyncRuntimeError) are not modelled, as the spawned
closure has no panicking path once spawned. -/
def joinOutcome : List (Except AnnError Unit) → Except String Unit
  | [] => .ok ()
  | Except.error AnnError.sendTimeout :: _ => .ok ()
  | Except.error (AnnError.other _) :: rs => joinOutcome rs
  | Except.ok _ :: rs => joinOutcome rs

/-- How many spawned announcements the join loop awaited, and whether it
detached the remaining ones: on the first SendTimeout the loop stops
awaiting (detach_all) with the rest still running unawaited. -/
def joinAwaited : List (Except AnnError Unit) → Nat × Bool
  | [] => (0, false)
  | Except.error AnnError.sendTimeout :: _ => (1, true)
  | Except.error (AnnError.other _) :: rs => ((joinAwaited rs).1 + 1, (joinAwaited rs).2)
  | Except.ok _ :: rs => ((joinAwaited rs).1 + 1, (joinAwaited rs).2)

/-- Failure of announce_peers as a whole. -/
inductive AnnouncePeersError where
  | recon (e : ReconErr)
  | join (msg : String)
deriving DecidableEq

/-- SchedulerAnnouncer::announce_peers (lines 317-410): reconcile (a
scan failure is surfaced with ?), spawn one announcement per request,
then run the join loop whose completion results are an input. -/
def announcePeersResult (env : ReconEnv) (tasks : List StoredTask)
    (joinResults : List (Except AnnError Unit)) : Except AnnouncePeersError Unit :=
  match (makeAnnouncePeersRequest env tasks).result with
  | .error e => .error (.recon e)
  | .ok _ =>
    match joinOutcome joinResults with
    | .error m => .error (.join m)
    | .ok _ => .ok ()

/-! ## The concurrency semaphore of announce_peers (lines 322-324, 348).
Each spawned announcement acquires one permit before opening its
stream and holds it for the lifetime of the stream. -/

/-- Semaphore::new(5) at line 324. -/
def announceSemaphorePermits : Nat := 5

/-- State of the fan-out: announcements spawned but not yet holding a
permit, announcements holding a permit (stream in flight), and
announcements finished (permit released). -/
structure SemState where
  pending : Nat
  active : Nat
  finished : Nat
deriving DecidableEq

/-- One scheduling step: a pending announcement acquires a permit only
while fewer than announceSemaphorePermits are held; a holder finishes
and releases its permit. -/
inductive SemStep : SemState → SemState → Prop
  | acquire (s : SemState) (hp : 0 < s.pending) (ha : s.active < announceSemaphorePermits) :
      SemStep s ⟨s.pending - 1, s.active + 1, s.finished⟩
  | release (s : SemState) (ha : 0 < s.active) :
      SemStep s ⟨s.pending, s.active - 1, s.finished + 1⟩

/-- Initial state with n spawned announcements. -/
def semInit (n : Nat) : SemState := ⟨n, 0, 0⟩

/-- States reachable by the fan-out of n spawned announcements. -/
def SemReachable (n : Nat) (s : SemState) : Prop :=
  Relation.ReflTransGen SemStep (semInit n) s

/-! ## Concrete inputs reused by several theorems -/

/-- A seed-peer configuration matching the end-to-end scenario 1 of the spec. -/
def cfgSeed : Config :=
  { seedPeer := { enable := true, kind := .superSeed, clusterId := 7 }
    host := { hostname := "node-a", ip := some "10.0.0.1" }
    upload := { server := { port := 4000 } }
    gc := { policy := { taskTtl := 3600 } }
    scheduler := { announceInterval := 30 } }

/-- The same configuration with no host ip configured. -/
def cfgNoIp : Config :=
  { cfgSeed with host := { hostname := "node-a", ip := none } }

/-- A memory sample with 0 < used_memory < total_memory. -/
def siHalf : SysInfo :=
  { totalMemory := 2
    availableMemory := 1
    usedMemory := 1
    freeMemory := 1
    processMemory := 1
    physicalCoreCount := some 4
    globalCpuPercent := 0
    processCpuPercent := 0 }

/-- A concrete reconciliation environment whose ring maps every route
key to the single scheduler address sched-1. -/
def envW : ReconEnv :=
  { hostId := "host-1"
    ring := fun _ => some "sched-1"
    getPieces := fun _ => none
    peerId := fun n => "peer-" ++ toString n }

/-- A finished, fresh task with a well-formed 8-character id. -/
def taskGoodW : StoredTask :=
  { id := "abcdefgh", isExpired := false, isFinished := true }

/-- An expired task: the reconciler must evict it. -/
def taskBadW : StoredTask :=
  { id := "zzzzz111", isExpired := true, isFinished := true }

/-- A finished, fresh task whose id has fewer than 5 characters. -/
def taskShortW : StoredTask :=
  { id := "abc", isExpired := false, isFinished := true }

/-- A storage snapshot with one evicted task and one announceable task. -/
def tasksW : List StoredTask := [taskBadW, taskGoodW]

/-- A throwaway peer for chunking witnesses. -/
def peerUnit : Peer := { id := "p" }

/-! ## Counting peers by task id (used to state claim C5) -/

/-- Does this peer carry the given task id in its task header. -/
def peerHasTask (tid : String) (p : Peer) : Bool :=
  match p.task with
  | some w => w.id == tid
  | none => false

/-- Number of peers carrying the given task id across a bucket map. -/
def countB (tid : String) : List (String × List Peer) → Nat
  | [] => 0
  | b :: bs => b.2.countP (peerHasTask tid) + countB tid bs

/-- Number of peers carrying the given task id across a request list. -/
def countTaskPeers (tid : String) : List AnnouncePeersRequest → Nat
  | [] => 0
  | r :: rs => r.peers.countP (peerHasTask tid) + countTaskPeers tid rs

/-! ## Equation lemmas for the task scan -/

theorem processTasks_cons_evict (env : ReconEnv) (t : StoredTask) (ts : List StoredTask)
    (bs : List (String × List Peer)) (ds : List String) (n : Nat)
    (he : shouldEvict t = true) :
    processTasks env (t :: ts) bs ds n = processTasks env ts bs (ds ++ [t.id]) n := by
  simp [processTasks, he]

theorem processTasks_cons_short (env : ReconEnv) (t : StoredTask) (ts : List StoredTask)
    (bs : List (String × List Peer)) (ds : List String) (n : Nat)
    (he : shouldEvict t = false) (hlen : t.id.length < 5) :
    processTasks env (t :: ts) bs ds n = ⟨ds, .error (.panicShortId t.id)⟩ := by
  simp [processTasks, he, hlen]

theorem processTasks_cons_noring (env : ReconEnv) (t : StoredTask) (ts : List StoredTask)
    (bs : List (String × List Peer)) (ds : List String) (n : Nat)
    (he : shouldEvict t = false) (hlen : ¬ t.id.length < 5)
    (hr : env.ring (t.id.take 5) = none) :
    processTasks env (t :: ts) bs ds n = ⟨ds, .error (.hashRing t.id)⟩ := by
  simp [processTasks, he, hlen, hr]

theorem processTasks_cons_route (env : ReconEnv) (t : StoredTask) (ts : List StoredTask)
    (bs : List (String × List Peer)) (ds : List String) (n : Nat) (addr : String)
    (he : shouldEvict t = false) (hlen : ¬ t.id.length < 5)
    (hr : env.ring (t.id.take 5) = some addr) :
    processTasks env (t :: ts) bs ds n =
      processTasks env ts (insertBucket addr (mkPeer env n t) bs) ds (n + 1) := by
  simp [processTasks, he, hlen, hr]

/-- A successful make_announce_peers_request comes from a successful
scan, with one request per bucket. -/
theorem makeAnnouncePeersRequest_ok (env : ReconEnv) (ts : List StoredTask)
    (dels : List String) (reqs : List AnnouncePeersRequest)
    (h : makeAnnouncePeersRequest env ts = ⟨dels, Except.ok reqs⟩) :
    ∃ bsF, processTasks env ts [] [] 0 = ⟨dels, Except.ok bsF⟩ ∧
      reqs = bsF.map (fun b => { peers := b.2 }) := by
  unfold makeAnnouncePeersRequest at h
  cases hproc : processTasks env ts [] [] 0 with
  | mk dsF res =>
    rw [hproc] at h
    cases res with
    | error e => simp [Except.map] at h
    | ok bsF =>
      simp [Except.map] at h
      exact ⟨bsF, by rw [h.1], h.2.symm⟩

/-- A prefix of evicted tasks only accumulates delete RPCs. -/
theorem processTasks_evicted_first (env : ReconEnv) :
    ∀ (pre : List StoredTask), (∀ u ∈ pre, shouldEvict u = true) →
    ∀ (l : List StoredTask) (bs : List (String × List Peer)) (ds : List String) (n : Nat),
      processTasks env (pre ++ l) bs ds n =
        processTasks env l bs (ds ++ pre.map StoredTask.id) n := by
  intro pre
  induction pre with
  | nil => intro h l bs ds n; simp
  | cons u pre ih =>
    intro h l bs ds n
    have hu : shouldEvict u = true := h u (List.mem_cons_self u pre)
    rw [List.cons_append, processTasks_cons_evict env u (pre ++ l) bs ds n hu,
      ih (fun v hv => h v (List.mem_cons_of_mem u hv))]
    simp

/-! ## Claim C3 -/

/-- C3, counterexample: on storage holding one finished, fresh task with
the 3-character id abc, make_announce_peers_request does not fail with
the HashRing error carrying that id: it panics at the byte slice
task.id[0..5] (line 471). -/
theorem short_id_cex :
    (makeAnnouncePeersRequest envW [taskShortW]).result =
      Except.error (ReconErr.panicShortId "abc") ∧
    (makeAnnouncePeersRequest envW [taskShortW]).result ≠
      Except.error (ReconErr.hashRing "abc") := by
  refine ⟨rfl, fun h => ?_⟩
  have h0 : Except.error (ε := ReconErr) (α := List AnnouncePeersRequest)
      (ReconErr.panicShortId "abc") = Except.error (ReconErr.hashRing "abc") := h
  exact ReconErr.noConfusion (Except.error.inj h0)

/-- C3, amended: for every finished, non-expired task whose id is
shorter than 5 characters and that the scan reaches (any earlier tasks
being evicted ones), make_announce_peers_request panics at the byte
slice task.id[0..5]; it does not return the HashRingError, which is
reserved for ids of length at least 5 whose route key is absent from
the ring. -/
theorem short_id_panics (env : ReconEnv) (pre : List StoredTask) (t : StoredTask)
    (rest : List StoredTask)
    (hpre : ∀ u ∈ pre, shouldEvict u = true)
    (ht : shouldEvict t = false) (hlen : t.id.length < 5) :
    (makeAnnouncePeersRequest env (pre ++ t :: rest)).result =
      Except.error (ReconErr.panicShortId t.id) := by
  unfold makeAnnouncePeersRequest
  rw [processTasks_evicted_first env pre hpre,
    processTasks_cons_short env t rest [] ([] ++ pre.map StoredTask.id) 0 ht hlen]
  rfl

/-- C3, witness: the amended theorem on concrete storage holding one
evicted task followed by the short-id task. -/
theorem short_id_panics_witness :
    (makeAnnouncePeersRequest envW [taskBadW, taskShortW]).result =
      Except.error (ReconErr.panicShortId "abc") :=
  short_id_panics envW [taskBadW] taskShortW []
    (fun u hu => by rw [List.mem_singleton.mp hu]; rfl) rfl (by decide)

/-! ## Claim C4 -/

/-- Every stream event is an openStream or sendFrame event. -/
theorem streamEvents_isStream (reqs : List AnnouncePeersRequest) :
    ∀ e ∈ streamEvents reqs, e.isStream = true := by
  intro e he
  rw [streamEvents, List.mem_flatMap] at he
  obtain ⟨r, -, he⟩ := he
  unfold streamEventsOf at he
  cases hs : spawnDecision r with
  | panicked => rw [hs] at he; exact absurd he (List.not_mem_nil e)
  | skipped => rw [hs] at he; exact absurd he (List.not_mem_nil e)
  | spawned tid =>
    rw [hs] at he
    rcases List.mem_cons.mp he with rfl | he
    · rfl
    · obtain ⟨f, -, rfl⟩ := List.mem_map.mp he
      rfl

/-- C4, counterexample: on storage holding one expired task, the
program-order trace of announce_peers is acquire, delete_task,
release: the delete_task RPC of line 427 is awaited while the hashring
read guard taken at line 420 is still held (the guard is dropped only
when make_announce_peers_request returns), contradicting the claim that
no RPC happens under the guard. -/
theorem delete_under_ring_guard_cex :
    announcerTrace envW [taskBadW] =
      [Event.acquireRingRead, Event.deleteTaskRpc "zzzzz111", Event.releaseRingRead] ∧
    ∃ mid post,
      announcerTrace envW [taskBadW] =
        Event.acquireRingRead :: (mid ++ Event.releaseRingRead :: post) ∧
      Event.deleteTaskRpc "zzzzz111" ∈ mid := by
  exact ⟨rfl, [Event.deleteTaskRpc "zzzzz111"], [], rfl, List.mem_singleton.mpr rfl⟩

/-- C4, amended: during a reconciliation pass the delete_task RPCs ARE
issued while the hash-ring read guard is held; the guard is released
when make_announce_peers_request returns, before any announce_peers
stream is opened: the trace is acquire, the delete RPCs, release, and
only then the stream events. -/
theorem ring_guard_scope (env : ReconEnv) (tasks : List StoredTask) :
    announcerTrace env tasks =
      Event.acquireRingRead ::
        ((makeAnnouncePeersRequest env tasks).deletedTaskIds.map Event.deleteTaskRpc ++
          Event.releaseRingRead :: streamTail env tasks) ∧
    (∀ e ∈ streamTail env tasks, e.isStream = true) ∧
    (∀ e ∈ ringEvents (makeAnnouncePeersRequest env tasks).deletedTaskIds,
      e.isStream = false) := by
  refine ⟨?_, ?_, ?_⟩
  · simp [announcerTrace, ringEvents]
  · intro e he
    unfold streamTail at he
    cases hres : (makeAnnouncePeersRequest env tasks).result with
    | ok reqs => rw [hres] at he; exact streamEvents_isStream reqs e he
    | error er => rw [hres] at he; exact absurd he (List.not_mem_nil e)
  · intro e he
    unfold ringEvents at he
    rcases List.mem_cons.mp he with rfl | he
    · rfl
    rcases List.mem_append.mp he with he | he
    · obtain ⟨tid, -, rfl⟩ := List.mem_map.mp he
      rfl
    · rw [List.mem_singleton.mp he]
      rfl

/-- C4, witness: the amended trace shape on concrete storage with one
evicted and one announceable task, and its nonempty stream section. -/
theorem ring_guard_scope_witness :
    announcerTrace envW tasksW =
      Event.acquireRingRead ::
        ((makeAnnouncePeersRequest envW tasksW).deletedTaskIds.map Event.deleteTaskRpc ++
          Event.releaseRingRead :: streamTail envW tasksW) ∧
    Event.isStream (Event.openStream "abcdefgh") = true := by
  refine ⟨(ring_guard_scope envW tasksW).1, ?_⟩
  exact (ring_guard_scope envW tasksW).2.1 (Event.openStream "abcdefgh")
    (show Event.openStream "abcdefgh" ∈
        ([Event.openStream "abcdefgh", Event.sendFrame "abcdefgh" 1] : List Event) from
      List.mem_cons_self _ _)

/-! ## Claim C1 -/

/-- C1, counterexample: the claim asserts that a failure of the shutdown
delete_seed_peer is not propagated and run returns Ok regardless.  On
the concrete seed-peer configuration with a successful registration and
a failing delete, ManagerAnnouncer::run returns the delete error (the
source awaits the delete with ? at line 107), not Ok. -/
theorem manager_run_delete_failure_cex :
    (managerRun cfgSeed (Except.ok ()) (Except.error "connection refused")).2 =
      RunResult.err "connection refused" ∧
    (managerRun cfgSeed (Except.ok ()) (Except.error "connection refused")).2 ≠
      RunResult.ok := by
  refine ⟨rfl, ?_⟩
  intro h
  exact RunResult.noConfusion h

/-- C1, amended: when seed peers are enabled and update_seed_peer
succeeds, once the shutdown signal fires run issues exactly one
delete_seed_peer, with the same hostname, ip and seed_peer_cluster_id
as the registration; however a failure of that delete IS propagated:
run returns Ok exactly when the delete succeeds, and returns the delete
error otherwise. -/
theorem manager_run_paired_delete (cfg : Config) (i : String)
    (dres : Except String Unit)
    (hen : cfg.seedPeer.enable = true) (hip : cfg.host.ip = some i) :
    (managerRun cfg (Except.ok ()) dres).1 =
      [MgrRpc.update (mkUpdateSeedPeerRequest cfg i),
       MgrRpc.delete (mkDeleteSeedPeerRequest cfg i)] ∧
    ((managerRun cfg (Except.ok ()) dres).1.countP MgrRpc.isDelete = 1) ∧
    (mkDeleteSeedPeerRequest cfg i).hostname = (mkUpdateSeedPeerRequest cfg i).hostname ∧
    (mkDeleteSeedPeerRequest cfg i).ip = (mkUpdateSeedPeerRequest cfg i).ip ∧
    (mkDeleteSeedPeerRequest cfg i).seedPeerClusterId =
      (mkUpdateSeedPeerRequest cfg i).seedPeerClusterId ∧
    (∀ e, dres = Except.error e → (managerRun cfg (Except.ok ()) dres).2 = RunResult.err e) ∧
    (dres = Except.ok () → (managerRun cfg (Except.ok ()) dres).2 = RunResult.ok) := by
  cases dres with
  | ok u =>
    simp [managerRun, hen, hip, List.countP_cons, MgrRpc.isDelete,
      mkUpdateSeedPeerRequest, mkDeleteSeedPeerRequest]
  | error e =>
    simp [managerRun, hen, hip, List.countP_cons, MgrRpc.isDelete,
      mkUpdateSeedPeerRequest, mkDeleteSeedPeerRequest]

/-- C1, witness: the amended theorem evaluated on the concrete seed-peer
configuration with both RPCs succeeding. -/
theorem manager_run_paired_delete_witness :
    (managerRun cfgSeed (Except.ok ()) (Except.ok ())).1 =
      [MgrRpc.update (mkUpdateSeedPeerRequest cfgSeed "10.0.0.1"),
       MgrRpc.delete (mkDeleteSeedPeerRequest cfgSeed "10.0.0.1")] :=
  (manager_run_paired_delete cfgSeed "10.0.0.1" (Except.ok ()) rfl rfl).1

/-! ## Claim C2 -/

/-- C2, code bug: memory.used_percent and memory.process_used_percent
are computed by u64 integer division before the cast to f64 (lines 239
and 240), so with used_memory = 1 and total_memory = 2 the host snapshot
reports used_percent = 0, while the spec ratio is 1/2, strictly between
0 and 1.  The snapshot built by make_announce_host_request carries
exactly this truncated Memory block. -/
theorem memory_used_percent_truncated :
    (makeMemory siHalf).usedPercent = 0 ∧
    (makeMemory siHalf).processUsedPercent = 0 ∧
    specMemoryUsedPercent 1 2 = (1 : Rat) / 2 ∧
    ¬ (0 < (makeMemory siHalf).usedPercent ∧ (makeMemory siHalf).usedPercent < 1) ∧
    (∃ r, makeAnnounceHostRequest cfgSeed "host-1" siHalf
        (some { totalSpace := 100, availableSpace := 50 }) = HostReqOutcome.ok r ∧
      r.host.memory = some (makeMemory siHalf)) := by
  refine ⟨rfl, rfl, rfl, ?_, ⟨_, rfl, rfl⟩⟩
  intro h
  have h0 : (makeMemory siHalf).usedPercent = 0 := rfl
  rw [h0] at h
  exact lt_irrefl 0 h.1

/-! ## Claim C9 -/

/-- C9: implicit precondition config.host.ip = Some.  With ip = None,
ManagerAnnouncer::run (seed peers enabled) panics at the unwrap on line
89, and make_announce_host_request panics at the unwrap on line 289
(given a successful statvfs sample), instead of returning errors. -/
theorem host_ip_none_panics (cfg : Config) (ures dres : Except String Unit)
    (hostId : String) (si : SysInfo) (stat : StatvfsInfo)
    (hip : cfg.host.ip = none) :
    (cfg.seedPeer.enable = true → (managerRun cfg ures dres).2 = RunResult.panicked) ∧
    makeAnnounceHostRequest cfg hostId si (some stat) = HostReqOutcome.panicked := by
  constructor
  · intro hen
    simp [managerRun, hen, hip]
  · simp [makeAnnounceHostRequest, hip]

/-- C9, witness: the panic outcomes on the concrete ip-less configuration. -/
theorem host_ip_none_panics_witness :
    (managerRun cfgNoIp (Except.ok ()) (Except.ok ())).2 = RunResult.panicked ∧
    makeAnnounceHostRequest cfgNoIp "host-1" siHalf
      (some { totalSpace := 100, availableSpace := 50 }) = HostReqOutcome.panicked :=
  ⟨(host_ip_none_panics cfgNoIp (Except.ok ()) (Except.ok ()) "host-1" siHalf
      { totalSpace := 100, availableSpace := 50 } rfl).1 rfl,
   (host_ip_none_panics cfgNoIp (Except.ok ()) (Except.ok ()) "host-1" siHalf
      { totalSpace := 100, availableSpace := 50 } rfl).2⟩

/-! ## Lemmas for claims C5 and C10 -/

theorem countTaskPeers_map (tid : String) (bs : List (String × List Peer)) :
    countTaskPeers tid (bs.map (fun b => { peers := b.2 })) = countB tid bs := by
  induction bs with
  | nil => rfl
  | cons b bs ih => simp [countTaskPeers, countB, ih]

theorem countB_insertBucket (tid addr : String) (p : Peer)
    (bs : List (String × List Peer)) :
    countB tid (insertBucket addr p bs) =
      countB tid bs + (if peerHasTask tid p then 1 else 0) := by
  induction bs with
  | nil => simp [insertBucket, countB, List.countP_cons]
  | cons b bs ih =>
    by_cases h : b.1 = addr
    · simp [insertBucket, if_pos h, countB, List.countP_append, List.countP_cons]
      omega
    · simp [insertBucket, if_neg h, countB, ih]
      omega

/-- Characterization of a successful scan: the deletes are exactly the
evicted tasks in order, and the bucket map gains, for every task id,
one peer per announceable stored task carrying that id. -/
theorem processTasks_ok_spec (env : ReconEnv) :
    ∀ (ts : List StoredTask) (bs : List (String × List Peer)) (ds : List String)
      (n : Nat) (dsF : List String) (bsF : List (String × List Peer)),
      processTasks env ts bs ds n = ⟨dsF, Except.ok bsF⟩ →
      dsF = ds ++ (ts.filter shouldEvict).map StoredTask.id ∧
      ∀ tid, countB tid bsF = countB tid bs +
        (ts.filter (fun t => !shouldEvict t && t.id == tid)).length := by
  intro ts
  induction ts with
  | nil =>
    intro bs ds n dsF bsF h
    simp [processTasks] at h
    obtain ⟨rfl, rfl⟩ := h
    simp
  | cons t ts ih =>
    intro bs ds n dsF bsF h
    by_cases he : shouldEvict t = true
    · rw [processTasks_cons_evict env t ts bs ds n he] at h
      obtain ⟨h1, h2⟩ := ih _ _ _ _ _ h
      refine ⟨?_, ?_⟩
      · rw [h1]; simp [he]
      · intro tid
        rw [h2 tid]
        simp [he]
    · have he2 : shouldEvict t = false := by
        cases hb : shouldEvict t
        · rfl
        · exact absurd hb he
      by_cases hlen : t.id.length < 5
      · rw [processTasks_cons_short env t ts bs ds n he2 hlen] at h
        exact absurd h (by simp)
      · cases hr : env.ring (t.id.take 5) with
        | none =>
          rw [processTasks_cons_noring env t ts bs ds n he2 hlen hr] at h
          exact absurd h (by simp)
        | some addr =>
          rw [processTasks_cons_route env t ts bs ds n addr he2 hlen hr] at h
          obtain ⟨h1, h2⟩ := ih _ _ _ _ _ h
          refine ⟨by simpa [he2] using h1, ?_⟩
          intro tid
          rw [h2 tid, countB_insertBucket]
          have hp : peerHasTask tid (mkPeer env n t) = (t.id == tid) := by
            simp [mkPeer, peerHasTask, mkWireTask]
          rw [hp]
          simp only [List.filter_cons, he2, Bool.not_false, Bool.true_and]
          by_cases hid : t.id == tid
          · simp [hid]
            omega
          · simp [hid]

/-- A nodup list whose members all equal a given member is the singleton. -/
theorem nodup_all_eq_singleton {α : Type} {l : List α} {a : α} (hn : l.Nodup)
    (ha : a ∈ l) (hall : ∀ x ∈ l, x = a) : l = [a] := by
  cases l with
  | nil => cases ha
  | cons x xs =>
    have hx : x = a := hall x (List.mem_cons_self x xs)
    subst hx
    cases xs with
    | nil => rfl
    | cons y ys =>
      exfalso
      have hy : y = x := hall y (List.mem_cons_of_mem x (List.mem_cons_self y ys))
      have hmem : x ∈ y :: ys := by rw [hy]; exact List.mem_cons_self x ys
      exact (List.nodup_cons.mp hn).1 hmem

/-! ## Claim C5 -/

/-- C5: on storage whose task ids are pairwise distinct, whenever
make_announce_peers_request succeeds, every stored task either had a
delete_task RPC issued for it and appears in no request (when expired
or unfinished) or appears as exactly one peer across all requests and
in no delete (when finished and fresh) — never both, never neither;
and when the route key of an announceable task is absent from the ring
snapshot, the whole reconciliation fails with the HashRing error. -/
theorem reconcile_exactly_one (env : ReconEnv) (ts : List StoredTask)
    (hnd : (ts.map StoredTask.id).Nodup) :
    (∀ dels reqs, makeAnnouncePeersRequest env ts = ⟨dels, Except.ok reqs⟩ →
      ∀ t ∈ ts,
        (shouldEvict t = true → t.id ∈ dels ∧ countTaskPeers t.id reqs = 0) ∧
        (shouldEvict t = false → t.id ∉ dels ∧ countTaskPeers t.id reqs = 1)) ∧
    (∀ u rest, shouldEvict u = false → 5 ≤ u.id.length →
      env.ring (u.id.take 5) = none →
      (makeAnnouncePeersRequest env (u :: rest)).result =
        Except.error (ReconErr.hashRing u.id)) := by
  constructor
  · intro dels reqs hok t ht
    obtain ⟨bsF, hproc, rfl⟩ := makeAnnouncePeersRequest_ok env ts dels reqs hok
    obtain ⟨h1, h2⟩ := processTasks_ok_spec env ts [] [] 0 dels bsF hproc
    have hcount : ∀ tid, countTaskPeers tid (bsF.map (fun b => { peers := b.2 })) =
        (ts.filter (fun u => !shouldEvict u && u.id == tid)).length := by
      intro tid
      rw [countTaskPeers_map, h2 tid]
      simp [countB]
    constructor
    · intro he
      refine ⟨?_, ?_⟩
      · rw [h1]
        simp only [List.nil_append]
        exact List.mem_map.mpr ⟨t, List.mem_filter.mpr ⟨ht, he⟩, rfl⟩
      · rw [hcount]
        have hnil : ts.filter (fun u => !shouldEvict u && u.id == t.id) = [] := by
          rw [List.filter_eq_nil_iff]
          intro u hu hcon
          have hid : u.id = t.id := by
            have hb := (Bool.and_eq_true _ _).mp hcon
            exact eq_of_beq hb.2
          have hut : u = t := List.inj_on_of_nodup_map hnd hu ht hid
          rw [hut, he] at hcon
          simp at hcon
        rw [hnil]
        rfl
    · intro he
      refine ⟨?_, ?_⟩
      · rw [h1]
        simp only [List.nil_append]
        intro hmem
        obtain ⟨u, hu, hid⟩ := List.mem_map.mp hmem
        have hu2 := List.mem_filter.mp hu
        have hut : u = t := List.inj_on_of_nodup_map hnd hu2.1 ht hid
        rw [hut, he] at hu2
        simp at hu2
      · rw [hcount]
        have hsingle : ts.filter (fun u => !shouldEvict u && u.id == t.id) = [t] := by
          apply nodup_all_eq_singleton
          · exact (List.Nodup.of_map StoredTask.id hnd).filter _
          · exact List.mem_filter.mpr ⟨ht, by simp [he]⟩
          · intro x hx
            have hx2 := List.mem_filter.mp hx
            have hid : x.id = t.id := by
              have hb := (Bool.and_eq_true _ _).mp hx2.2
              exact eq_of_beq hb.2
            exact List.inj_on_of_nodup_map hnd hx2.1 ht hid
        rw [hsingle]
        rfl
  · intro u rest he h5 hr
    unfold makeAnnouncePeersRequest
    rw [processTasks_cons_noring env u rest [] [] 0 he (Nat.not_lt.mpr h5) hr]
    rfl

/-- C5, witness: on the concrete two-task storage, the announceable task
is not among the deletes and appears as exactly one peer. -/
theorem reconcile_exactly_one_witness :
    "abcdefgh" ∉ (["zzzzz111"] : List String) ∧
    countTaskPeers "abcdefgh" [{ peers := [mkPeer envW 0 taskGoodW] }] = 1 :=
  ((reconcile_exactly_one envW tasksW (by decide)).1 ["zzzzz111"]
      [{ peers := [mkPeer envW 0 taskGoodW] }] rfl taskGoodW
      (List.mem_cons_of_mem _ (List.mem_cons_self _ _))).2 rfl


/-! ## Claim C10 -/

theorem insertBucket_good (P : Peer → Prop) (addr : String) (p : Peer)
    (bs : List (String × List Peer))
    (hbs : ∀ b ∈ bs, b.2 ≠ [] ∧ ∀ q ∈ b.2, P q) (hp : P p) :
    ∀ b ∈ insertBucket addr p bs, b.2 ≠ [] ∧ ∀ q ∈ b.2, P q := by
  induction bs with
  | nil =>
    intro b hb
    simp only [insertBucket] at hb
    rw [List.mem_singleton.mp hb]
    refine ⟨by simp, ?_⟩
    intro q hq
    rw [List.mem_singleton.mp hq]
    exact hp
  | cons c bs ih =>
    intro b hb
    simp only [insertBucket] at hb
    by_cases h : c.1 = addr
    · rw [if_pos h] at hb
      rcases List.mem_cons.mp hb with rfl | hb
      · obtain ⟨-, hall⟩ := hbs c (List.mem_cons_self c bs)
        refine ⟨by simp, ?_⟩
        intro q hq
        rcases List.mem_append.mp hq with hq | hq
        · exact hall q hq
        · rw [List.mem_singleton.mp hq]
          exact hp
      · exact hbs b (List.mem_cons_of_mem c hb)
    · rw [if_neg h] at hb
      rcases List.mem_cons.mp hb with rfl | hb
      · exact hbs b (List.mem_cons_self b bs)
      · exact ih (fun d hd => hbs d (List.mem_cons_of_mem c hd)) b hb

/-- Bucket invariant through a successful scan: buckets stay nonempty
and made of peers built from announceable tasks. -/
theorem processTasks_buckets (env : ReconEnv) (P : Peer → Prop) :
    ∀ (ts : List StoredTask) (bs : List (String × List Peer)) (ds : List String)
      (n : Nat) (dsF : List String) (bsF : List (String × List Peer)),
      processTasks env ts bs ds n = ⟨dsF, Except.ok bsF⟩ →
      (∀ b ∈ bs, b.2 ≠ [] ∧ ∀ q ∈ b.2, P q) →
      (∀ t ∈ ts, shouldEvict t = false → ¬ t.id.length < 5 → ∀ k, P (mkPeer env k t)) →
      ∀ b ∈ bsF, b.2 ≠ [] ∧ ∀ q ∈ b.2, P q := by
  intro ts
  induction ts with
  | nil =>
    intro bs ds n dsF bsF h hbs hP
    simp [processTasks] at h
    obtain ⟨-, rfl⟩ := h
    exact hbs
  | cons t ts ih =>
    intro bs ds n dsF bsF h hbs hP
    by_cases he : shouldEvict t = true
    · rw [processTasks_cons_evict env t ts bs ds n he] at h
      exact ih _ _ _ _ _ h hbs (fun u hu => hP u (List.mem_cons_of_mem t hu))
    · have he2 : shouldEvict t = false := by
        cases hb : shouldEvict t
        · rfl
        · exact absurd hb he
      by_cases hlen : t.id.length < 5
      · rw [processTasks_cons_short env t ts bs ds n he2 hlen] at h
        exact absurd h (by simp)
      · cases hr : env.ring (t.id.take 5) with
        | none =>
          rw [processTasks_cons_noring env t ts bs ds n he2 hlen hr] at h
          exact absurd h (by simp)
        | some addr =>
          rw [processTasks_cons_route env t ts bs ds n addr he2 hlen hr] at h
          refine ih _ _ _ _ _ h ?_ (fun u hu => hP u (List.mem_cons_of_mem t hu))
          exact insertBucket_good P addr _ bs hbs
            (hP t (List.mem_cons_self t ts) he2 hlen n)

/-- C10: every request produced by a successful
make_announce_peers_request has at least one peer, and every one of its
peers carries a task header with the non-empty id of an announceable
stored task; hence request.peers[0] cannot panic and the continue
branch that skips a request whose first peer has no task is unreachable
on produced requests (its spawn decision is always spawned). -/
theorem requests_wellformed (env : ReconEnv) (ts : List StoredTask)
    (dels : List String) (reqs : List AnnouncePeersRequest)
    (h : makeAnnouncePeersRequest env ts = ⟨dels, Except.ok reqs⟩) :
    ∀ r ∈ reqs, r.peers ≠ [] ∧
      (∃ tid, spawnDecision r = SpawnOutcome.spawned tid) ∧
      ∀ p ∈ r.peers, ∃ w, p.task = some w ∧ w.id ≠ "" ∧
        ∃ t ∈ ts, shouldEvict t = false ∧ w.id = t.id := by
  obtain ⟨bsF, hproc, rfl⟩ := makeAnnouncePeersRequest_ok env ts dels reqs h
  have hgood := processTasks_buckets env
    (fun p => ∃ w, p.task = some w ∧ w.id ≠ "" ∧
      ∃ t ∈ ts, shouldEvict t = false ∧ w.id = t.id)
    ts [] [] 0 dels bsF hproc (by simp) ?hP
  case hP =>
    intro t ht hev hlen k
    refine ⟨mkWireTask t, rfl, ?_, t, ht, hev, rfl⟩
    show t.id ≠ ""
    intro h0
    exact hlen (by rw [h0]; decide)
  intro r hr
  obtain ⟨b, hb, rfl⟩ := List.mem_map.mp hr
  obtain ⟨hne, hall⟩ := hgood b hb
  refine ⟨by simpa using hne, ?_, fun p hp => hall p hp⟩
  cases hpeers : b.2 with
  | nil => exact absurd hpeers hne
  | cons p rest =>
    obtain ⟨w, hw, -, -⟩ := hall p (by rw [hpeers]; exact List.mem_cons_self p rest)
    exact ⟨w.id, by simp [spawnDecision, hw]⟩

/-- C10, witness: the produced request on the concrete two-task storage
is nonempty and its spawn decision routes by the task id. -/
theorem requests_wellformed_witness :
    ({ peers := [mkPeer envW 0 taskGoodW] } : AnnouncePeersRequest).peers ≠ [] ∧
    spawnDecision { peers := [mkPeer envW 0 taskGoodW] } =
      SpawnOutcome.spawned "abcdefgh" := by
  have h := requests_wellformed envW tasksW ["zzzzz111"]
    [{ peers := [mkPeer envW 0 taskGoodW] }] rfl
    { peers := [mkPeer envW 0 taskGoodW] } (List.mem_singleton.mpr rfl)
  exact ⟨h.1, rfl⟩

/-! ## Claim C6 -/

/-- The join loop of announce_peers always produces Ok: SendTimeout
detaches the rest and exits with Ok, other errors are logged only. -/
theorem joinOutcome_eq_ok (rs : List (Except AnnError Unit)) :
    joinOutcome rs = Except.ok () := by
  induction rs with
  | nil => rfl
  | cons r rs ih =>
    cases r with
    | ok u => rw [joinOutcome]; exact ih
    | error e =>
      cases e with
      | sendTimeout => rfl
      | other m => rw [joinOutcome]; exact ih

/-- Recognizer for the SendTimeout completion result. -/
def isSendTimeoutRes : Except AnnError Unit → Bool
  | Except.error AnnError.sendTimeout => true
  | _ => false

/-- C6: if some spawned announcement completes with SendTimeout, the
join loop awaits results only up to and including the first SendTimeout
and detaches the remaining announcements, and announce_peers returns
Ok; without any SendTimeout every sibling is awaited, other errors are
logged only, and announce_peers still returns Ok (whenever the
reconciliation itself succeeded). -/
theorem join_loop_policy (rs : List (Except AnnError Unit)) :
    joinOutcome rs = Except.ok () ∧
    (Except.error AnnError.sendTimeout ∈ rs →
      joinAwaited rs = (rs.findIdx isSendTimeoutRes + 1, true)) ∧
    (Except.error AnnError.sendTimeout ∉ rs →
      joinAwaited rs = (rs.length, false)) ∧
    (∀ env tasks reqs,
      (makeAnnouncePeersRequest env tasks).result = Except.ok reqs →
      announcePeersResult env tasks rs = Except.ok ()) := by
  refine ⟨joinOutcome_eq_ok rs, ?_, ?_, ?_⟩
  · intro hmem
    induction rs with
    | nil => cases hmem
    | cons r rs ih =>
      cases r with
      | ok u =>
        have hm : Except.error AnnError.sendTimeout ∈ rs := by
          rcases List.mem_cons.mp hmem with h | h
          · cases h
          · exact h
        rw [joinAwaited, List.findIdx_cons]
        simp only [isSendTimeoutRes, cond_false]
        rw [ih hm]
      | error e =>
        cases e with
        | sendTimeout =>
          rw [joinAwaited, List.findIdx_cons]
          rfl
        | other m =>
          have hm : Except.error AnnError.sendTimeout ∈ rs := by
            rcases List.mem_cons.mp hmem with h | h
            · exact absurd (Except.error.inj h) (by intro hc; cases hc)
            · exact h
          rw [joinAwaited, List.findIdx_cons]
          simp only [isSendTimeoutRes, cond_false]
          rw [ih hm]
  · intro hnmem
    induction rs with
    | nil => rfl
    | cons r rs ih =>
      have hn : Except.error AnnError.sendTimeout ∉ rs :=
        fun hc => hnmem (List.mem_cons_of_mem r hc)
      cases r with
      | ok u =>
        rw [joinAwaited, ih hn]
        rfl
      | error e =>
        cases e with
        | sendTimeout => exact absurd (List.mem_cons_self _ _) hnmem
        | other m =>
          rw [joinAwaited, ih hn]
          rfl
  · intro env tasks reqs hok
    unfold announcePeersResult
    rw [hok, joinOutcome_eq_ok rs]

/-- C6, witness: a SendTimeout as the second of three results makes the
loop await two results and detach the rest. -/
theorem join_loop_policy_witness :
    joinAwaited [Except.ok (), Except.error AnnError.sendTimeout, Except.ok ()] =
      (2, true) := by
  have h := (join_loop_policy
    [Except.ok (), Except.error AnnError.sendTimeout, Except.ok ()]).2.1
    (List.mem_cons_of_mem _ (List.mem_cons_self _ _))
  rw [h]
  rfl

/-! ## Claim C7 -/

theorem chunksFuel_nil (n fuel : Nat) : chunksFuel n fuel ([] : List α) = [] := by
  cases fuel <;> rfl

theorem chunksFuel_cons (n fuel : Nat) (l : List α) (h : l ≠ []) :
    chunksFuel n (fuel + 1) l = l.take n :: chunksFuel n fuel (l.drop n) := by
  cases l with
  | nil => exact absurd rfl h
  | cons a as => rfl

theorem chunksFuel_le (n : Nat) :
    ∀ (fuel : Nat) (l : List α) (c : List α), c ∈ chunksFuel n fuel l → c.length ≤ n := by
  intro fuel
  induction fuel with
  | zero =>
    intro l c hc
    cases l <;> simp [chunksFuel] at hc
  | succ fuel ih =>
    intro l c hc
    cases l with
    | nil => simp [chunksFuel] at hc
    | cons a as =>
      rw [chunksFuel_cons n fuel (a :: as) (by simp)] at hc
      rcases List.mem_cons.mp hc with rfl | hc
      · rw [List.length_take]
        exact Nat.min_le_left n _
      · exact ih _ _ hc

theorem chunksFuel_flatten (n : Nat) :
    ∀ (fuel : Nat) (l : List α), 0 < n → l.length ≤ fuel →
      (chunksFuel n fuel l).flatten = l := by
  intro fuel
  induction fuel with
  | zero =>
    intro l hn hl
    rw [List.eq_nil_of_length_eq_zero (Nat.le_zero.mp hl)]
    rfl
  | succ fuel ih =>
    intro l hn hl
    cases l with
    | nil => rfl
    | cons a as =>
      rw [chunksFuel_cons n fuel (a :: as) (by simp), List.flatten_cons,
        ih ((a :: as).drop n) hn ?_]
      · exact List.take_append_drop n (a :: as)
      · rw [List.length_drop]
        simp only [List.length_cons] at hl ⊢
        omega

/-- Three maximal chunks of 10 out of any 25 elements. -/
theorem chunks_map_length_25 (l : List α) (hl : l.length = 25) :
    (chunks 10 l).map List.length = [10, 10, 5] := by
  have h1 : l ≠ [] := by intro h; rw [h] at hl; simp at hl
  rw [chunks, hl, show (25 : Nat) = 24 + 1 from rfl, chunksFuel_cons 10 24 l h1]
  have hd1 : (l.drop 10).length = 15 := by rw [List.length_drop, hl]
  have h2 : l.drop 10 ≠ [] := by intro h; rw [h] at hd1; simp at hd1
  rw [show (24 : Nat) = 23 + 1 from rfl, chunksFuel_cons 10 23 _ h2]
  have hd2 : ((l.drop 10).drop 10).length = 5 := by rw [List.length_drop, hd1]
  have h3 : (l.drop 10).drop 10 ≠ [] := by intro h; rw [h] at hd2; simp at hd2
  rw [show (23 : Nat) = 22 + 1 from rfl, chunksFuel_cons 10 22 _ h3]
  have hd3 : ((l.drop 10).drop 10).drop 10 = [] := by
    apply List.eq_nil_of_length_eq_zero
    rw [List.length_drop, hd2]
  rw [hd3, chunksFuel_nil]
  simp [List.length_take, hl, hd1, hd2]

/-- C7: every frame sent on a peer-announcement stream carries at most
10 peers, the frames partition the bucket request in order, and a
25-peer request yields exactly the frame sizes 10, 10, 5. -/
theorem frames_chunked (r : AnnouncePeersRequest) :
    (∀ f ∈ framesFor r, f.peers.length ≤ 10) ∧
    ((framesFor r).map AnnouncePeersRequest.peers).flatten = r.peers ∧
    (r.peers.length = 25 →
      (framesFor r).map (fun f => f.peers.length) = [10, 10, 5]) := by
  have hmap : (framesFor r).map AnnouncePeersRequest.peers = chunks 10 r.peers := by
    rw [framesFor, List.map_map]
    exact List.map_id _
  refine ⟨?_, ?_, ?_⟩
  · intro f hf
    obtain ⟨c, hc, rfl⟩ := List.mem_map.mp hf
    exact chunksFuel_le 10 _ _ _ hc
  · rw [hmap, chunks]
    exact chunksFuel_flatten 10 _ _ (by decide) (Nat.le_refl _)
  · intro h25
    have : (framesFor r).map (fun f => f.peers.length) =
        ((framesFor r).map AnnouncePeersRequest.peers).map List.length := by
      rw [List.map_map]
      rfl
    rw [this, hmap]
    exact chunks_map_length_25 _ h25

/-- C7, witness: a concrete 25-peer request yields frames of sizes
10, 10 and 5 in order. -/
theorem frames_chunked_witness :
    (framesFor { peers := List.replicate 25 peerUnit }).map (fun f => f.peers.length) =
      [10, 10, 5] :=
  (frames_chunked { peers := List.replicate 25 peerUnit }).2.2 (by simp)

/-! ## Claim C8 -/

/-- Permit-holder invariant of the fan-out semaphore. -/
theorem sem_active_le (n : Nat) (s : SemState) (hs : SemReachable n s) :
    s.active ≤ announceSemaphorePermits := by
  induction hs with
  | refl => exact Nat.zero_le _
  | tail hprev step ih =>
    cases step with
    | acquire hp ha => exact ha
    | release ha => exact le_trans (Nat.sub_le _ _) ih

/-- C8: in every reachable state of the announce_peers fan-out at most 5
streaming announcements hold a permit; from a full state the only
enabled step releases a permit, so a sixth spawned announcement cannot
open its stream until one of the five finishes; and on empty storage
the reconciliation yields no requests, no stream events, and
announce_peers returns Ok. -/
theorem announce_concurrency_cap (n : Nat) (s : SemState) (hs : SemReachable n s) :
    s.active ≤ announceSemaphorePermits ∧
    (∀ u, SemStep s u → s.active = announceSemaphorePermits → u.active < s.active) ∧
    (∀ env rs, makeAnnouncePeersRequest env [] = ⟨[], Except.ok []⟩ ∧
      streamTail env [] = [] ∧
      announcePeersResult env [] rs = Except.ok ()) := by
  refine ⟨sem_active_le n s hs, ?_, ?_⟩
  · intro u step hfull
    cases step with
    | acquire hp ha =>
      rw [hfull] at ha
      exact absurd ha (lt_irrefl _)
    | release ha => exact Nat.sub_lt ha Nat.one_pos
  · intro env rs
    refine ⟨rfl, rfl, ?_⟩
    show (match joinOutcome rs with
      | Except.error m => Except.error (AnnouncePeersError.join m)
      | Except.ok u => Except.ok ()) = Except.ok ()
    rw [joinOutcome_eq_ok rs]

/-- C8, witness: the bound evaluated at the initial state of a fan-out
of nine spawned announcements. -/
theorem announce_concurrency_cap_witness :
    (semInit 9).active ≤ announceSemaphorePermits :=
  (announce_concurrency_cap 9 (semInit 9) Relation.ReflTransGen.refl).1

end DflyAnnouncer
